import Mathlib

/-!
Shallow embedding of the domain-server control plane found in
src/domain-server/src/DomainServer.cpp, together with theorems that check
the specification claims about pairwise session secrets, ICE-server
failover and heartbeat denials, metaverse heartbeat error handling, the
static assignment queue, HTTP authentication, entity file replacement and
connected-user counting.

UUIDs, socket addresses and secrets are embedded as naturals, with 0
playing the role of the null QUuid and of the null address. Hash tables
are embedded as association lists with first-hit lookup, and the two
container helpers below reproduce the unique-key behaviour of QHash.
-/

namespace Hifi

/-- Lookup in an association list, first entry wins (QHash::value). -/
def hashLookup {α : Type} (m : List (Nat × α)) (k : Nat) : Option α :=
  (m.find? (fun p => p.1 = k)).map Prod.snd

/-- Insert with key replacement (QHash::insert). -/
def hashInsert {α : Type} (m : List (Nat × α)) (k : Nat) (v : α) : List (Nat × α) :=
  (k, v) :: m.filter (fun p => ¬ p.1 = k)

/-- Remove and return the value stored under a key (QHash::take). -/
def hashTake {α : Type} (m : List (Nat × α)) (k : Nat) : Option α × List (Nat × α) :=
  (hashLookup m k, m.filter (fun p => ¬ p.1 = k))

/-! ## Session secrets

Embedding of DomainServer::connectionSecretForNodes and of the secret
cleanup loop of DomainServer::nodeKilled. The per-node session-secret
hashes of all nodes are collected into one table indexed by the owning
node UUID and then the peer UUID; an entry of 0 means the peer key is
absent or holds the null QUuid, which the source treats alike. -/

/-- The combined session-secret tables of all nodes. -/
abbrev SecretTable := Nat → Nat → Nat

/-- Embedding of DomainServer::connectionSecretForNodes. The argument
fresh stands for the QUuid::createUuid draw that is used when the entry
for nodeB in the hash of nodeA is null: in that case the generated secret
is written into the hash of nodeA under the UUID of nodeB (through the
reference returned by operator[]) and inserted into the hash of nodeB
under the UUID of nodeA. Otherwise the stored secret is returned and
nothing changes. -/
def connectionSecretForNodes (t : SecretTable) (a b fresh : Nat) : Nat × SecretTable :=
  if t a b ≠ 0 then
    (t a b, t)
  else
    (fresh, fun x y => if (x = a ∧ y = b) ∨ (x = b ∧ y = a) then fresh else t x y)

/-- Embedding of the secret cleanup in DomainServer::nodeKilled: for every
peer UUID that is a key of the hash of the killed node, the entry for the
killed node is removed from the hash of that peer; the hash of the killed
node itself is destroyed together with its linked data. -/
def nodeKilledSecrets (t : SecretTable) (a : Nat) : SecretTable :=
  fun x y =>
    if x = a then 0
    else if y = a ∧ t a x ≠ 0 then 0
    else t x y

/-- Operations that touch the session-secret tables. -/
inductive SecretOp where
  | secret (a b fresh : Nat)
  | kill (a : Nat)

/-- One operation applied to the combined secret table. -/
def applySecretOp (t : SecretTable) : SecretOp → SecretTable
  | SecretOp.secret a b fresh => (connectionSecretForNodes t a b fresh).2
  | SecretOp.kill a => nodeKilledSecrets t a

/-- The table of a freshly started server: no secrets anywhere. -/
def emptySecrets : SecretTable := fun _ _ => 0

/-- The secret table reached by a sequence of operations from startup. -/
def runSecretOps (ops : List SecretOp) : SecretTable :=
  ops.foldl applySecretOp emptySecrets

/-- Symmetry of a secret table: the entry of A for B always equals the
entry of B for A. -/
def Symm (t : SecretTable) : Prop := ∀ x y, t x y = t y x

theorem symm_connectionSecret (t : SecretTable) (ht : Symm t) (a b fresh : Nat) :
    Symm (connectionSecretForNodes t a b fresh).2 := by
  unfold connectionSecretForNodes
  by_cases h : t a b ≠ 0
  · simpa [h] using ht
  · simp only [h, if_false, ite_not]
    intro x y
    by_cases hxy : (x = a ∧ y = b) ∨ (x = b ∧ y = a)
    · have hyx : (y = a ∧ x = b) ∨ (y = b ∧ x = a) := by tauto
      simp [hxy, hyx]
    · have hyx : ¬ ((y = a ∧ x = b) ∨ (y = b ∧ x = a)) := by tauto
      simp [hxy, hyx, ht x y]

theorem symm_nodeKilled (t : SecretTable) (ht : Symm t) (a : Nat) :
    Symm (nodeKilledSecrets t a) := by
  intro x y
  unfold nodeKilledSecrets
  by_cases hx : x = a <;> by_cases hy : y = a
  · simp [hx, hy]
  · by_cases h : t a y = 0
    · simp [hx, hy, h, ht y a, h]
    · simp [hx, hy, h]
  · by_cases h : t a x = 0
    · simp [hx, hy, h, ht x a, h]
    · simp [hx, hy, h]
  · simp [hx, hy, ht x y]

theorem symm_applySecretOp (t : SecretTable) (ht : Symm t) (op : SecretOp) :
    Symm (applySecretOp t op) := by
  cases op with
  | secret a b fresh => exact symm_connectionSecret t ht a b fresh
  | kill a => exact symm_nodeKilled t ht a

theorem symm_runSecretOps (ops : List SecretOp) : Symm (runSecretOps ops) := by
  have general : ∀ (l : List SecretOp) (t : SecretTable), Symm t → Symm (l.foldl applySecretOp t) := by
    intro l
    induction l with
    | nil => intro t ht; exact ht
    | cons op rest ih => intro t ht; exact ih _ (symm_applySecretOp t ht op)
  exact general ops emptySecrets (fun _ _ => rfl)

theorem connectionSecret_of_ne_zero (t : SecretTable) (a b g : Nat) (h : t a b ≠ 0) :
    connectionSecretForNodes t a b g = (t a b, t) := by
  unfold connectionSecretForNodes
  simp [h]

theorem connectionSecret_stored (t : SecretTable) (ht : Symm t) (a b fresh : Nat) (hfresh : fresh ≠ 0) :
    (connectionSecretForNodes t a b fresh).1 ≠ 0 ∧
    (t a b = 0 → (connectionSecretForNodes t a b fresh).1 = fresh) ∧
    (connectionSecretForNodes t a b fresh).2 a b = (connectionSecretForNodes t a b fresh).1 ∧
    (connectionSecretForNodes t a b fresh).2 b a = (connectionSecretForNodes t a b fresh).1 := by
  unfold connectionSecretForNodes
  by_cases h : t a b = 0
  · simp [h, hfresh]
  · simp [h, ht b a]

theorem applySecretOp_preserves (t : SecretTable) (ht : Symm t) (a b : Nat) (hab : t a b ≠ 0)
    (op : SecretOp) (hop : ∀ c, op = SecretOp.kill c → c ≠ a ∧ c ≠ b) :
    applySecretOp t op a b = t a b := by
  cases op with
  | secret c d g =>
    show (connectionSecretForNodes t c d g).2 a b = t a b
    unfold connectionSecretForNodes
    by_cases hcd : t c d = 0
    · simp only [hcd, ne_eq, not_true_eq_false, if_false, ite_not]
      have : ¬ ((a = c ∧ b = d) ∨ (a = d ∧ b = c)) := by
        rintro (⟨rfl, rfl⟩ | ⟨rfl, rfl⟩)
        · exact hab hcd
        · exact hab ((ht a b).trans hcd)
      simp [this]
    · simp [hcd]
  | kill c =>
    obtain ⟨hca, hcb⟩ := hop c rfl
    show nodeKilledSecrets t c a b = t a b
    unfold nodeKilledSecrets
    have ha : ¬ a = c := fun h => hca h.symm
    have hb : ¬ b = c := fun h => hcb h.symm
    simp [ha, hb]

theorem nodeKilled_removes (t : SecretTable) (ht : Symm t) (c x : Nat) :
    nodeKilledSecrets t c c x = 0 ∧ nodeKilledSecrets t c x c = 0 := by
  unfold nodeKilledSecrets
  constructor
  · simp
  · by_cases hx : x = c
    · simp [hx]
    · by_cases h : t c x = 0
      · simp [hx, h, ht x c, h]
      · simp [hx, h]

/-- The property asserted by claim C1 at a secret table: the table is
symmetric; a call to connectionSecretForNodes returns a non-null secret,
generating it from the fresh draw exactly on the first call, and stores it
under both orders of the pair; any later call in either order returns the
same value and leaves the table unchanged; any operation that does not
kill one of the two nodes leaves the pair entry unchanged; and killing any
node clears every entry that mentions it, in its own row and in the row of
every peer. -/
def C1Spec (t : SecretTable) (a b fresh : Nat) : Prop :=
  Symm t ∧
  (connectionSecretForNodes t a b fresh).1 ≠ 0 ∧
  (t a b = 0 → (connectionSecretForNodes t a b fresh).1 = fresh) ∧
  (connectionSecretForNodes t a b fresh).2 a b = (connectionSecretForNodes t a b fresh).1 ∧
  (connectionSecretForNodes t a b fresh).2 b a = (connectionSecretForNodes t a b fresh).1 ∧
  (∀ g, connectionSecretForNodes (connectionSecretForNodes t a b fresh).2 a b g
      = ((connectionSecretForNodes t a b fresh).1, (connectionSecretForNodes t a b fresh).2)) ∧
  (∀ g, connectionSecretForNodes (connectionSecretForNodes t a b fresh).2 b a g
      = ((connectionSecretForNodes t a b fresh).1, (connectionSecretForNodes t a b fresh).2)) ∧
  (∀ op, (∀ c, op = SecretOp.kill c → c ≠ a ∧ c ≠ b) →
      applySecretOp (connectionSecretForNodes t a b fresh).2 op a b
        = (connectionSecretForNodes t a b fresh).1) ∧
  (∀ c x, nodeKilledSecrets (connectionSecretForNodes t a b fresh).2 c c x = 0 ∧
      nodeKilledSecrets (connectionSecretForNodes t a b fresh).2 c x c = 0)

/-- C1: for every pair of live nodes the pairwise session secret is
symmetric and stable. connectionSecretForNodes lazily generates a secret
on the first call, stores it in the session-secret maps of both nodes
under the UUID of the other, and every later call with the pair in either
order returns that same value unchanged for as long as both nodes are
live; when a node is killed, its secret is removed from the map of every
peer. This holds at every table reachable from startup by any sequence of
secret and kill operations. -/
theorem C1_connectionSecret (ops : List SecretOp) (a b fresh : Nat) (hfresh : fresh ≠ 0) :
    C1Spec (runSecretOps ops) a b fresh := by
  have ht : Symm (runSecretOps ops) := symm_runSecretOps ops
  have ht2 : Symm (connectionSecretForNodes (runSecretOps ops) a b fresh).2 :=
    symm_connectionSecret _ ht a b fresh
  obtain ⟨h1, h2, h3, h4⟩ := connectionSecret_stored (runSecretOps ops) ht a b fresh hfresh
  have hab2 : (connectionSecretForNodes (runSecretOps ops) a b fresh).2 a b ≠ 0 := by
    rw [h3]; exact h1
  have hba2 : (connectionSecretForNodes (runSecretOps ops) a b fresh).2 b a ≠ 0 := by
    rw [h4]; exact h1
  refine ⟨ht, h1, h2, h3, h4, ?_, ?_, ?_, ?_⟩
  · intro g
    rw [connectionSecret_of_ne_zero _ a b g hab2, h3]
  · intro g
    rw [connectionSecret_of_ne_zero _ b a g hba2, h4]
  · intro op hop
    rw [applySecretOp_preserves _ ht2 a b hab2 op hop, h3]
  · intro c x
    exact nodeKilled_removes _ ht2 c x

/-- Witness for C1 at a concrete run: one prior secret operation, then the
pair 1 and 2 with fresh draw 7. -/
theorem C1_connectionSecret_witness :
    (7 : Nat) ≠ 0 ∧ C1Spec (runSecretOps [SecretOp.secret 3 4 5]) 1 2 7 :=
  ⟨by decide, C1_connectionSecret [SecretOp.secret 3 4 5] 1 2 7 (by decide)⟩

/-! ## ICE server heartbeats and failover

Embedding of DomainServer::sendHeartbeatToIceServer,
DomainServer::randomizeICEServerAddress,
DomainServer::sendICEServerAddressToMetaverseAPI and the ICE heartbeat
ACK and denial handlers. Outbound actions are recorded as events. The
random draw of std::uniform_int_distribution is passed in as a natural
number reduced modulo the number of candidates, so every candidate index
corresponds to some draw. -/

/-- Outbound actions of the ICE heartbeat engine. -/
inductive IceEvent where
  | heartbeatSent (addr : Nat)
  | metaverseIceUpdate (payload : Nat)
  | dnsLookup
  | keypairRegen
deriving DecidableEq, Repr

/-- State of the ICE heartbeat engine. The payload 0 in a
metaverseIceUpdate event stands for the 0.0.0.0 address sent when no
ice-server is connected. -/
structure IceState where
  iceServerAddresses : List Nat
  failedIceServerAddresses : List Nat
  iceServerSocket : Option Nat
  noReplyICEHeartbeats : Nat
  numHeartbeatDenials : Nat
  connectedToICEServer : Bool
  apiInProgress : Bool
  apiRedo : Bool
deriving DecidableEq, Repr

/-- Embedding of DomainServer::sendICEServerAddressToMetaverseAPI: at
most one update is in flight; a second request only sets the redo flag.
The payload is the current ice-server address when connected, otherwise
the 0.0.0.0 marker. -/
def sendICEServerAddressToMetaverseAPI (st : IceState) : IceState × List IceEvent :=
  if st.apiInProgress then
    ({ st with apiRedo := true }, [])
  else
    let payload :=
      match st.connectedToICEServer, st.iceServerSocket with
      | true, some addr => addr
      | _, _ => 0
    ({ st with apiInProgress := true }, [IceEvent.metaverseIceUpdate payload])

/-- Candidate selection of DomainServer::randomizeICEServerAddress, lines
3265 to 3312: remove the failed addresses from the DNS results, fall back
to the full list (clearing the failed set) when nothing remains, pick an
index (0 when there is at most one candidate, otherwise the uniform draw),
set the socket and clear the denial counter. The follow-up heartbeat and
metaverse update of lines 3315 to 3318 are sequenced by the caller. -/
def randomizeCore (st : IceState) (shouldTriggerHostLookup : Bool) (draw : Nat) :
    IceState × List IceEvent :=
  let lookupEvents : List IceEvent := if shouldTriggerHostLookup then [IceEvent.dnsLookup] else []
  let filtered := st.iceServerAddresses.filter (fun a => !(st.failedIceServerAddresses.contains a))
  let failed := if filtered.isEmpty then [] else st.failedIceServerAddresses
  let candidates := if filtered.isEmpty then st.iceServerAddresses else filtered
  let indexToTry := if 1 < candidates.length then draw % candidates.length else 0
  ({ st with
      failedIceServerAddresses := failed,
      iceServerSocket := some (candidates.getD indexToTry 0),
      numHeartbeatDenials := 0 },
   lookupEvents)

/-- The heartbeat packet sent at the end of sendHeartbeatToIceServer. -/
def heartbeatPacketEvents (st : IceState) : List IceEvent :=
  match st.iceServerSocket with
  | some addr => [IceEvent.heartbeatSent addr]
  | none => []

/-- Embedding of DomainServer::sendHeartbeatToIceServer. With no selected
socket nothing happens; with no private key a keypair regeneration is
requested (when a session UUID exists) and the tick ends. Otherwise the
no-reply counter is bumped, and once it exceeds 3 the failover block runs:
the current address joins the failed set, the socket is cleared, the
counter resets, a metaverse update starts, and randomizeICEServerAddress
picks a new candidate (triggering a host lookup, sending a heartbeat to
the new address and requesting another metaverse update) before the tick
falls through to send its own heartbeat packet. The fuel bounds the
nesting of the mutually recursive calls and is never exhausted in runs
reachable from a reset counter. -/
def sendHeartbeatToIceServerF : Nat → IceState → Bool → Bool → Nat → IceState × List IceEvent
  | fuel, st, hasPrivateKey, sessionUUIDNull, draw =>
    match st.iceServerSocket with
    | none => (st, [])
    | some cur =>
      if hasPrivateKey = false then
        (st, if sessionUUIDNull then [] else [IceEvent.keypairRegen])
      else
        let st1 := { st with noReplyICEHeartbeats := st.noReplyICEHeartbeats + 1 }
        if 3 < st1.noReplyICEHeartbeats then
          let st2 := { st1 with
            failedIceServerAddresses := st1.failedIceServerAddresses ++ [cur],
            iceServerSocket := none,
            noReplyICEHeartbeats := 0,
            connectedToICEServer := false }
          let apiR := sendICEServerAddressToMetaverseAPI st2
          match fuel with
          | 0 => apiR
          | fuel' + 1 =>
            let coreR := randomizeCore apiR.1 true draw
            let hbR := sendHeartbeatToIceServerF fuel' coreR.1 hasPrivateKey sessionUUIDNull draw
            let apiR2 := sendICEServerAddressToMetaverseAPI hbR.1
            (apiR2.1, apiR.2 ++ coreR.2 ++ hbR.2 ++ apiR2.2 ++ heartbeatPacketEvents apiR2.1)
        else
          (st1, heartbeatPacketEvents st1)

/-- Embedding of DomainServer::randomizeICEServerAddress as a whole:
candidate selection followed by an immediate heartbeat to the new
candidate and a metaverse address update. -/
def randomizeICEServerAddressF (fuel : Nat) (st : IceState) (shouldTriggerHostLookup : Bool)
    (hasPrivateKey sessionUUIDNull : Bool) (draw : Nat) : IceState × List IceEvent :=
  let coreR := randomizeCore st shouldTriggerHostLookup draw
  let hbR := sendHeartbeatToIceServerF fuel coreR.1 hasPrivateKey sessionUUIDNull draw
  let apiR := sendICEServerAddressToMetaverseAPI hbR.1
  (apiR.1, coreR.2 ++ hbR.2 ++ apiR.2)

/-- Embedding of DomainServer::processICEServerHeartbeatDenialPacket: the
denial counter is bumped, and once it exceeds 3 a keypair regeneration is
requested and the counter resets; the no-reply counter is cleared in
every case because the ice-server did respond. -/
def processICEServerHeartbeatDenialPacket (st : IceState) : IceState × List IceEvent :=
  let st1 := { st with numHeartbeatDenials := st.numHeartbeatDenials + 1 }
  if 3 < st1.numHeartbeatDenials then
    ({ st1 with numHeartbeatDenials := 0, noReplyICEHeartbeats := 0 }, [IceEvent.keypairRegen])
  else
    ({ st1 with noReplyICEHeartbeats := 0 }, [])

/-- Embedding of DomainServer::processICEServerHeartbeatACK. -/
def processICEServerHeartbeatACK (st : IceState) : IceState × List IceEvent :=
  let st1 := { st with noReplyICEHeartbeats := 0 }
  if st1.connectedToICEServer then (st1, [])
  else sendICEServerAddressToMetaverseAPI { st1 with connectedToICEServer := true }

/-- A run of consecutive ICEServerHeartbeatDenied packets. -/
def processDenials (st : IceState) : Nat → IceState × List IceEvent
  | 0 => (st, [])
  | n + 1 =>
    let r := processDenials st n
    let r2 := processICEServerHeartbeatDenialPacket r.1
    (r2.1, r.2 ++ r2.2)

theorem denial_step_low (st : IceState) (h : st.numHeartbeatDenials < 3) :
    processICEServerHeartbeatDenialPacket st =
      ({ st with numHeartbeatDenials := st.numHeartbeatDenials + 1, noReplyICEHeartbeats := 0 }, []) := by
  unfold processICEServerHeartbeatDenialPacket
  have hlt : ¬ 3 < st.numHeartbeatDenials + 1 := by omega
  simp [hlt]

theorem denial_step_regen (st : IceState) (h : st.numHeartbeatDenials = 3) :
    processICEServerHeartbeatDenialPacket st =
      ({ st with numHeartbeatDenials := 0, noReplyICEHeartbeats := 0 }, [IceEvent.keypairRegen]) := by
  unfold processICEServerHeartbeatDenialPacket
  simp [h]

theorem api_keeps_denials (st : IceState) :
    (sendICEServerAddressToMetaverseAPI st).1.numHeartbeatDenials = st.numHeartbeatDenials := by
  unfold sendICEServerAddressToMetaverseAPI
  split <;> rfl

theorem randomizeCore_denials (st : IceState) (b : Bool) (draw : Nat) :
    ((randomizeCore st b draw).1).numHeartbeatDenials = 0 := rfl

theorem sendHeartbeat_keeps_denials_zero (fuel : Nat) :
    ∀ (st : IceState) (hk sn : Bool) (draw : Nat), st.numHeartbeatDenials = 0 →
      (sendHeartbeatToIceServerF fuel st hk sn draw).1.numHeartbeatDenials = 0 := by
  induction fuel with
  | zero =>
    intro st hk sn draw h0
    unfold sendHeartbeatToIceServerF
    rcases hsock : st.iceServerSocket with _ | cur
    · simpa using h0
    · cases hk with
      | false => simpa [hsock] using h0
      | true =>
        simp only [hsock]
        rw [if_neg (show ¬ (true = false) by decide)]
        split
        · rw [api_keeps_denials]
          exact h0
        · exact h0
  | succ fuel ih =>
    intro st hk sn draw h0
    unfold sendHeartbeatToIceServerF
    rcases hsock : st.iceServerSocket with _ | cur
    · simpa using h0
    · cases hk with
      | false => simpa [hsock] using h0
      | true =>
        simp only [hsock]
        rw [if_neg (show ¬ (true = false) by decide)]
        split
        · rw [api_keeps_denials]
          exact ih _ true sn draw (randomizeCore_denials _ true draw)
        · exact h0

theorem randomize_resets_denials (fuel : Nat) (st : IceState) (trig hk sn : Bool) (draw : Nat) :
    (randomizeICEServerAddressF fuel st trig hk sn draw).1.numHeartbeatDenials = 0 := by
  unfold randomizeICEServerAddressF
  dsimp only
  rw [api_keeps_denials]
  exact sendHeartbeat_keeps_denials_zero fuel _ hk sn draw (randomizeCore_denials st trig draw)

/-- C3 as frozen is false on the code: starting from a reset denial
counter, three consecutive ICEServerHeartbeatDenied packets produce no
keypair regeneration at all, because processICEServerHeartbeatDenialPacket
only fires once the incremented counter exceeds 3, that is on the fourth
consecutive denial. -/
theorem C3_counterexample :
    (processDenials ⟨[10, 20], [], some 10, 0, 0, true, false, false⟩ 3).2 = [] ∧
    (processDenials ⟨[10, 20], [], some 10, 0, 0, true, false, false⟩ 3).1.numHeartbeatDenials = 3 := by
  decide

/-- C3 amended: upon receiving 4 consecutive ICEServerHeartbeatDenied
packets with no intervening ICE-server change, the controller regenerates
the domain keypair and resets the denial counter to zero; the first 3
consecutive denials change nothing but the counter, and any ICE-server
reselection through randomizeICEServerAddress resets the denial counter. -/
theorem C3_heartbeatDenials (st : IceState) (h0 : st.numHeartbeatDenials = 0) :
    (∀ n, n ≤ 3 → (processDenials st n).2 = [] ∧ (processDenials st n).1.numHeartbeatDenials = n) ∧
    ((processDenials st 4).2 = [IceEvent.keypairRegen] ∧
      (processDenials st 4).1.numHeartbeatDenials = 0) ∧
    (∀ fuel st2 trig hk sn draw,
      (randomizeICEServerAddressF fuel st2 trig hk sn draw).1.numHeartbeatDenials = 0) := by
  have low : ∀ n, n ≤ 3 → (processDenials st n).2 = [] ∧ (processDenials st n).1.numHeartbeatDenials = n := by
    intro n
    induction n with
    | zero => intro _; exact ⟨rfl, h0⟩
    | succ k ih =>
      intro hk
      obtain ⟨he, hc⟩ := ih (by omega)
      have hlow : (processDenials st k).1.numHeartbeatDenials < 3 := by omega
      have hstep := denial_step_low (processDenials st k).1 hlow
      constructor
      · show ((processDenials st k).2 ++ (processICEServerHeartbeatDenialPacket (processDenials st k).1).2) = []
        rw [he, hstep]
        rfl
      · show (processICEServerHeartbeatDenialPacket (processDenials st k).1).1.numHeartbeatDenials = k + 1
        rw [hstep]
        simpa using hc
  refine ⟨low, ⟨?_, ?_⟩, ?_⟩
  · obtain ⟨he, hc⟩ := low 3 (by omega)
    have hstep := denial_step_regen (processDenials st 3).1 hc
    show ((processDenials st 3).2 ++ (processICEServerHeartbeatDenialPacket (processDenials st 3).1).2) = _
    rw [he, hstep]
    rfl
  · obtain ⟨_, hc⟩ := low 3 (by omega)
    have hstep := denial_step_regen (processDenials st 3).1 hc
    show (processICEServerHeartbeatDenialPacket (processDenials st 3).1).1.numHeartbeatDenials = 0
    rw [hstep]
  · intro fuel st2 trig hk sn draw
    exact randomize_resets_denials fuel st2 trig hk sn draw

/-- Witness for the amended C3 at a concrete state with a reset counter. -/
theorem C3_heartbeatDenials_witness :
    (IceState.numHeartbeatDenials ⟨[10, 20], [], some 10, 0, 0, true, false, false⟩ = 0) ∧
    ((∀ n, n ≤ 3 →
        (processDenials ⟨[10, 20], [], some 10, 0, 0, true, false, false⟩ n).2 = [] ∧
        (processDenials ⟨[10, 20], [], some 10, 0, 0, true, false, false⟩ n).1.numHeartbeatDenials = n) ∧
      ((processDenials ⟨[10, 20], [], some 10, 0, 0, true, false, false⟩ 4).2 = [IceEvent.keypairRegen] ∧
        (processDenials ⟨[10, 20], [], some 10, 0, 0, true, false, false⟩ 4).1.numHeartbeatDenials = 0) ∧
      (∀ fuel st2 trig hk sn draw,
        (randomizeICEServerAddressF fuel st2 trig hk sn draw).1.numHeartbeatDenials = 0)) :=
  ⟨by decide, C3_heartbeatDenials ⟨[10, 20], [], some 10, 0, 0, true, false, false⟩ (by decide)⟩

theorem getD_pick_mem (l : List Nat) (draw : Nat) (h : l ≠ []) :
    l.getD (if 1 < l.length then draw % l.length else 0) 0 ∈ l := by
  have hlen : 0 < l.length := List.length_pos.mpr h
  have hidx : (if 1 < l.length then draw % l.length else 0) < l.length := by
    split
    · exact Nat.mod_lt _ (by omega)
    · exact hlen
  rw [List.getD_eq_getElem?_getD, List.getElem?_eq_getElem hidx]
  exact List.getElem_mem hidx

/-- The failover behaviour of one ICE heartbeat tick taken in a state
whose current address has already missed 3 heartbeats: the tick adds the
current address to the failed set (clearing the set instead when no other
candidate remains), resets the no-reply counter before counting the
heartbeat it sends to the new candidate (so the counter ends the tick at
1), picks the candidate selected by the uniform draw among the addresses
not yet failed, sends two heartbeat packets to it, and initiates one
metaverse ice-address update whose payload is the 0.0.0.0 marker, with the
redo flag left set for a follow-up update. -/
def C2Spec (addrs failed : List Nat) (cur den : Nat) (conn : Bool) (draw : Nat) : Prop :=
  let failedMid := failed ++ [cur]
  let filtered := addrs.filter (fun a => !(failedMid.contains a))
  let candidates := if filtered.isEmpty then addrs else filtered
  let idx := if 1 < candidates.length then draw % candidates.length else 0
  let newAddr := candidates.getD idx 0
  sendHeartbeatToIceServerF 2 ⟨addrs, failed, some cur, 3, den, conn, false, false⟩ true false draw =
    (⟨addrs, if filtered.isEmpty then [] else failedMid, some newAddr, 1, 0, false, true, true⟩,
     [IceEvent.metaverseIceUpdate 0, IceEvent.dnsLookup,
      IceEvent.heartbeatSent newAddr, IceEvent.heartbeatSent newAddr]) ∧
  newAddr ∈ candidates

/-- C2 fails on the code in one conjunct: on the failover tick the
metaverse update that is initiated carries the 0.0.0.0 marker (payload 0),
not the newly selected address 20, because the connected flag is still
clear until the new ice-server acknowledges; the no-reply counter also
ends the tick at 1, counting the heartbeat just sent to the new address. -/
theorem C2_counterexample :
    (sendHeartbeatToIceServerF 2 ⟨[10, 20], [], some 10, 3, 0, true, false, false⟩ true false 0).1.iceServerSocket
        = some 20 ∧
    IceEvent.metaverseIceUpdate 20
        ∉ (sendHeartbeatToIceServerF 2 ⟨[10, 20], [], some 10, 3, 0, true, false, false⟩ true false 0).2 ∧
    (sendHeartbeatToIceServerF 2 ⟨[10, 20], [], some 10, 3, 0, true, false, false⟩ true false 0).1.noReplyICEHeartbeats
        = 1 := by
  decide

/-- C2 amended: if the selected ICE address produced no reply to three
consecutive heartbeats then on the next tick the address joins the failed
set, the counter is reset before the heartbeats to the new candidate are
counted, a candidate determined by the uniform draw over the DNS-resolved
addresses not yet failed is selected (all candidates become eligible again
when every one has failed, by clearing the failed set), heartbeats go out
to the new candidate, and a metaverse ice-address update is initiated
carrying the 0.0.0.0 marker with a redo queued; the new address itself is
announced only after the new server acknowledges. -/
theorem C2_iceFailover (addrs failed : List Nat) (cur den : Nat) (conn : Bool) (draw : Nat)
    (h : addrs ≠ []) : C2Spec addrs failed cur den conn draw := by
  unfold C2Spec
  refine ⟨rfl, ?_⟩
  have hcand : (if (addrs.filter (fun a => !((failed ++ [cur]).contains a))).isEmpty
      then addrs
      else addrs.filter (fun a => !((failed ++ [cur]).contains a))) ≠ [] := by
    split
    · exact h
    · next hne =>
      intro hnil
      exact hne (by rw [hnil]; rfl)
  exact getD_pick_mem _ draw hcand

/-- Witness for the amended C2 at a concrete failover tick with two
resolved addresses, one of which has just failed. -/
theorem C2_iceFailover_witness :
    ([10, 20] : List Nat) ≠ [] ∧ C2Spec [10, 20] [] 10 0 true 0 :=
  ⟨by decide, C2_iceFailover [10, 20] [] 10 0 true 0 (by decide)⟩

/-! ## Metaverse heartbeat error handling

Embedding of DomainServer::handleMetaverseHeartbeatError. The attempt
counter embeds the function-local static counter of the source; the timer
flag embeds whether the metaverse heartbeat QTimer is allocated. -/

/-- Kinds of domains; the source only reacts for temporary domains. -/
inductive DomainType where
  | nonMetaverse
  | metaverseDomain
  | metaverseTemporaryDomain
deriving DecidableEq, Repr

/-- Network errors distinguished by the handler: 401, 404 and the rest. -/
inductive HeartbeatError where
  | authenticationRequired
  | contentNotFound
  | other
deriving DecidableEq, Repr

/-- Outbound action of the handler. -/
inductive MetaverseEvent where
  | getTemporaryName
deriving DecidableEq, Repr

/-- State read and written by the handler. -/
structure MetaverseHBState where
  metaverseHeartbeatTimerActive : Bool
  domainType : DomainType
  attempt : Nat
deriving DecidableEq, Repr

/-- Embedding of DomainServer::handleMetaverseHeartbeatError: nothing
happens when the heartbeat timer is already stopped or the domain is not
temporary; a 401 or 404 on a temporary domain stops the timer, bumps the
attempt counter, and requests a new temporary name while fewer than 5
attempts have accumulated; any other error returns before touching any
state. -/
def handleMetaverseHeartbeatError (st : MetaverseHBState) (err : HeartbeatError) :
    MetaverseHBState × List MetaverseEvent :=
  if st.metaverseHeartbeatTimerActive = false then (st, [])
  else if st.domainType = DomainType.metaverseTemporaryDomain then
    match err with
    | HeartbeatError.other => (st, [])
    | _ =>
      let st1 := { st with metaverseHeartbeatTimerActive := false, attempt := st.attempt + 1 }
      if st1.attempt < 5 then (st1, [MetaverseEvent.getTemporaryName])
      else (st1, [])
  else (st, [])

/-- C9: on a metaverse heartbeat error for a temporary domain, a 401 or a
404 stops the heartbeat timer and requests a new temporary name, giving up
and going silent once 5 failed attempts have accumulated; any other error
leaves the state unchanged so the heartbeat retries at the next tick; and
a non-temporary domain never requests a temporary name from this path. -/
theorem C9_metaverseHeartbeatError (st : MetaverseHBState) (err : HeartbeatError) :
    (st.metaverseHeartbeatTimerActive = true →
      st.domainType = DomainType.metaverseTemporaryDomain →
      err ≠ HeartbeatError.other →
      (handleMetaverseHeartbeatError st err).1.metaverseHeartbeatTimerActive = false ∧
      (handleMetaverseHeartbeatError st err).1.attempt = st.attempt + 1 ∧
      (st.attempt + 1 < 5 →
        (handleMetaverseHeartbeatError st err).2 = [MetaverseEvent.getTemporaryName]) ∧
      (5 ≤ st.attempt + 1 → (handleMetaverseHeartbeatError st err).2 = [])) ∧
    (err = HeartbeatError.other → handleMetaverseHeartbeatError st err = (st, [])) ∧
    (st.domainType ≠ DomainType.metaverseTemporaryDomain →
      handleMetaverseHeartbeatError st err = (st, [])) ∧
    (st.metaverseHeartbeatTimerActive = false → handleMetaverseHeartbeatError st err = (st, [])) := by
  unfold handleMetaverseHeartbeatError
  refine ⟨?_, ?_, ?_, ?_⟩
  · intro htimer hdom herr
    have hneg : ¬ st.metaverseHeartbeatTimerActive = false := by
      rw [htimer]; decide
    rw [if_neg hneg, if_pos hdom]
    cases err with
    | other => exact absurd rfl herr
    | authenticationRequired =>
      dsimp only
      refine ⟨?_, ?_, ?_, ?_⟩
      · split <;> rfl
      · split <;> rfl
      · intro h5; rw [if_pos h5]
      · intro hge; rw [if_neg (by omega)]
    | contentNotFound =>
      dsimp only
      refine ⟨?_, ?_, ?_, ?_⟩
      · split <;> rfl
      · split <;> rfl
      · intro h5; rw [if_pos h5]
      · intro hge; rw [if_neg (by omega)]
  · intro herr
    subst herr
    split
    · rfl
    · split
      · rfl
      · rfl
  · intro hdom
    by_cases ht : st.metaverseHeartbeatTimerActive = false
    · rw [if_pos ht]
    · rw [if_neg ht, if_neg hdom]
  · intro htimer
    rw [if_pos htimer]

/-- Witness for C9: temporary domain, active timer, first 401. -/
theorem C9_metaverseHeartbeatError_witness :
    ((handleMetaverseHeartbeatError ⟨true, DomainType.metaverseTemporaryDomain, 0⟩
        HeartbeatError.authenticationRequired).1.metaverseHeartbeatTimerActive = false ∧
      (handleMetaverseHeartbeatError ⟨true, DomainType.metaverseTemporaryDomain, 0⟩
        HeartbeatError.authenticationRequired).1.attempt = 1 ∧
      (handleMetaverseHeartbeatError ⟨true, DomainType.metaverseTemporaryDomain, 0⟩
        HeartbeatError.authenticationRequired).2 = [MetaverseEvent.getTemporaryName]) := by
  have h := (C9_metaverseHeartbeatError ⟨true, DomainType.metaverseTemporaryDomain, 0⟩
    HeartbeatError.authenticationRequired).1 rfl rfl (by decide)
  exact ⟨h.1, h.2.1, h.2.2.1 (by decide)⟩

/-! ## Entity file replacement

Embedding of DomainServer::maybeHandleReplacementEntityFile. The
scene-file codec is an external collaborator, so the header parser and
the rewrite-then-gzip transformation enter as function parameters; the
file system is a record of the two file contents plus the success of the
remove and the open-for-write calls. -/

/-- Contents of the entities directory and the outcome of its file
operations. -/
structure EntitiesFS where
  replaceFile : Option String
  entitiesFile : Option String
  replaceRemovable : Bool
  entitiesWritable : Bool
deriving DecidableEq, Repr

/-- Embedding of DomainServer::maybeHandleReplacementEntityFile: when the
replacement file is missing or its header does not parse, only a warning
is logged; otherwise the replacement file is removed first (bailing out
when the remove fails, to avoid replacing forever), the id and version
are rewritten, the result is gzipped and written over the authoritative
entities file when it opens for writing. -/
def maybeHandleReplacementEntityFile (parse : String → Option (Nat × Nat))
    (rewriteAndGzip : String → String) (fs : EntitiesFS) : EntitiesFS :=
  match fs.replaceFile with
  | none => fs
  | some content =>
    match parse content with
    | none => fs
    | some _ =>
      if fs.replaceRemovable = false then fs
      else
        let fs1 := { fs with replaceFile := none }
        if fs1.entitiesWritable then { fs1 with entitiesFile := some (rewriteAndGzip content) }
        else fs1

/-- C8: at startup the controller checks for a replacement entities file;
when the id and version header parses (and the file operations succeed)
the rewritten and gzipped content lands at the authoritative path and the
replacement file is deleted; when the header does not parse everything is
left unchanged; and when the replacement file cannot be deleted the swap
is aborted with the authoritative file unchanged. -/
theorem C8_replacementEntityFile (parse : String → Option (Nat × Nat))
    (rewriteAndGzip : String → String) (fs : EntitiesFS) :
    (∀ content hdr, fs.replaceFile = some content → parse content = some hdr →
      fs.replaceRemovable = true → fs.entitiesWritable = true →
      maybeHandleReplacementEntityFile parse rewriteAndGzip fs =
        { fs with replaceFile := none, entitiesFile := some (rewriteAndGzip content) }) ∧
    (∀ content, fs.replaceFile = some content → parse content = none →
      maybeHandleReplacementEntityFile parse rewriteAndGzip fs = fs) ∧
    (∀ content hdr, fs.replaceFile = some content → parse content = some hdr →
      fs.replaceRemovable = false →
      maybeHandleReplacementEntityFile parse rewriteAndGzip fs = fs) ∧
    (fs.replaceFile = none → maybeHandleReplacementEntityFile parse rewriteAndGzip fs = fs) := by
  unfold maybeHandleReplacementEntityFile
  refine ⟨?_, ?_, ?_, ?_⟩
  · intro content hdr hrep hparse hrem hwrit
    rw [hrep]
    simp only [hparse, hrem, hwrit]
    simp
  · intro content hrep hparse
    rw [hrep]
    simp only [hparse]
  · intro content hdr hrep hparse hrem
    rw [hrep]
    simp only [hparse, hrem]
    simp
  · intro hrep
    rw [hrep]

/-- Witness for C8 on a tiny concrete file system where the header of the
replacement file parses and both file operations succeed. -/
theorem C8_replacementEntityFile_witness :
    maybeHandleReplacementEntityFile
        (fun s => if s = "new-scene" then some (1, 2) else none)
        (fun s => String.append s "-gz")
        ⟨some "new-scene", some "old-scene", true, true⟩ =
      ⟨none, some "new-scene-gz", true, true⟩ :=
  (C8_replacementEntityFile
      (fun s => if s = "new-scene" then some (1, 2) else none)
      (fun s => String.append s "-gz")
      ⟨some "new-scene", some "old-scene", true, true⟩).1
    "new-scene" (1, 2) rfl rfl rfl rfl

/-! ## The node registry view used by the domain list and user count -/

/-- Node types of NodeType handled by the domain-server. -/
inductive NodeType where
  | Agent
  | AudioMixer
  | AvatarMixer
  | EntityServer
  | AssetServer
  | MessagesMixer
  | EntityScriptServer
  | UpstreamAudioMixer
  | UpstreamAvatarMixer
  | DownstreamAudioMixer
  | DownstreamAvatarMixer
  | Unassigned
deriving DecidableEq, Repr

/-- The DomainServerNodeData fields used by the claims: the declared
interest set, the authentication flag, whether the node was created from
an assignment, and the assignment UUID (0 for null). -/
structure NodeData where
  nodeInterestSet : List NodeType
  isAuthenticated : Bool
  wasAssigned : Bool
  assignmentUUID : Nat
deriving DecidableEq, Repr

/-- A registered node with its linked data and active-socket flag. -/
structure DSNode where
  uuid : Nat
  ntype : NodeType
  linked : Option NodeData
  activeSocket : Bool
deriving DecidableEq, Repr

/-- Body of the eachNode lambda of DomainServer::countConnectedUsers:
only unassigned Agents bump the counter. -/
def countStep (result : Nat) (node : DSNode) : Nat :=
  if node.ntype = NodeType.Agent then
    match node.linked with
    | some nodeData => if nodeData.wasAssigned = false then result + 1 else result
    | none => result
  else result

/-- Embedding of DomainServer::countConnectedUsers. -/
def countConnectedUsers (nodes : List DSNode) : Nat :=
  nodes.foldl countStep 0

/-- The predicate spelled out by claim C10: an Agent node whose linked
data records that it was not created from an assignment. -/
def isUnassignedAgent (n : DSNode) : Prop :=
  n.ntype = NodeType.Agent ∧ n.linked.map NodeData.wasAssigned = some false

instance (n : DSNode) : Decidable (isUnassignedAgent n) := by
  unfold isUnassignedAgent
  infer_instance

theorem countStep_eq (r : Nat) (n : DSNode) :
    countStep r n = r + (if isUnassignedAgent n then 1 else 0) := by
  obtain ⟨u, ty, lk, sock⟩ := n
  unfold countStep isUnassignedAgent
  by_cases ht : ty = NodeType.Agent
  · cases lk with
    | none => simp [ht]
    | some d =>
      by_cases hw : d.wasAssigned = false
      · simp [ht, hw]
      · simp [ht, hw]
  · simp [ht]

theorem countConnectedUsers_go (l : List DSNode) :
    ∀ acc : Nat, l.foldl countStep acc = acc + l.countP (fun n => decide (isUnassignedAgent n)) := by
  induction l with
  | nil => intro acc; simp
  | cons n l ih =>
    intro acc
    rw [List.foldl_cons, ih, countStep_eq, List.countP_cons]
    by_cases h : isUnassignedAgent n
    · simp [h]; omega
    · simp [h]

/-- C10: countConnectedUsers counts exactly the live nodes whose type is
Agent and whose linked data records that they were not created from an
assignment; appending any node that is a worker or an assigned script
agent leaves the count unchanged. -/
theorem C10_countConnectedUsers (nodes : List DSNode) :
    countConnectedUsers nodes = nodes.countP (fun n => decide (isUnassignedAgent n)) ∧
    (∀ n, ¬ isUnassignedAgent n →
      countConnectedUsers (nodes ++ [n]) = countConnectedUsers nodes) := by
  constructor
  · simpa using countConnectedUsers_go nodes 0
  · intro n hn
    have h1 := countConnectedUsers_go nodes 0
    have h2 := countConnectedUsers_go (nodes ++ [n]) 0
    unfold countConnectedUsers
    rw [h1, h2, List.countP_append]
    simp [hn]

/-- Witness for C10 on a small registry: one user agent, one assigned
agent, one audio mixer and one node without linked data. -/
theorem C10_countConnectedUsers_witness :
    countConnectedUsers
        [⟨1, NodeType.Agent, some ⟨[], true, false, 0⟩, true⟩,
         ⟨2, NodeType.Agent, some ⟨[], true, true, 9⟩, true⟩,
         ⟨3, NodeType.AudioMixer, some ⟨[], true, true, 7⟩, true⟩,
         ⟨4, NodeType.Agent, none, true⟩] =
      List.countP (fun n => decide (isUnassignedAgent n))
        [⟨1, NodeType.Agent, some ⟨[], true, false, 0⟩, true⟩,
         ⟨2, NodeType.Agent, some ⟨[], true, true, 9⟩, true⟩,
         ⟨3, NodeType.AudioMixer, some ⟨[], true, true, 7⟩, true⟩,
         ⟨4, NodeType.Agent, none, true⟩] ∧
    (¬ isUnassignedAgent ⟨5, NodeType.AudioMixer, some ⟨[], true, false, 0⟩, true⟩ ∧
      countConnectedUsers
          [⟨1, NodeType.Agent, some ⟨[], true, false, 0⟩, true⟩,
           ⟨5, NodeType.AudioMixer, some ⟨[], true, false, 0⟩, true⟩] =
        countConnectedUsers [⟨1, NodeType.Agent, some ⟨[], true, false, 0⟩, true⟩]) :=
  ⟨(C10_countConnectedUsers _).1,
   by decide,
   (C10_countConnectedUsers [⟨1, NodeType.Agent, some ⟨[], true, false, 0⟩, true⟩]).2
     ⟨5, NodeType.AudioMixer, some ⟨[], true, false, 0⟩, true⟩ (by decide)⟩

/-! ## Assignment queue

Embedding of the static assignment queue: Assignment objects, the
all-assignments hash, the unfulfilled queue, the pending assigned nodes
of the gatekeeper and the on-disk assignment scripts, together with
DomainServer::refreshStaticAssignmentAndAddToQueue, the assignment half
of DomainServer::nodeKilled, DomainServer::deployableAssignmentForRequest
and DomainServer::processRequestAssignmentPacket. -/

/-- Assignment::Type including the AllTypes wildcard. -/
inductive AssignmentType where
  | AudioMixerType
  | AgentType
  | AvatarMixerType
  | AssetServerType
  | MessagesMixerType
  | EntityScriptServerType
  | EntityServerType
  | AllTypes
deriving DecidableEq, Repr

/-- An Assignment: UUID, type, pool tag, payload bytes, static flag. -/
structure Assignment where
  uuid : Nat
  atype : AssignmentType
  pool : String
  payload : String
  isStatic : Bool
deriving DecidableEq, Repr

/-- What DomainGatekeeper::addPendingAssignedNode records per clone. -/
structure PendingAssignedNodeData where
  assignmentUUID : Nat
  walletUUID : Nat
  nodeVersion : String
deriving DecidableEq, Repr

/-- Assignment-related state of the domain-server. -/
structure AssignState where
  allAssignments : List (Nat × Assignment)
  unfulfilledAssignments : List Assignment
  pendingAssignedNodes : List (Nat × PendingAssignedNodeData)
  scriptFiles : List (Nat × String)
deriving DecidableEq, Repr

/-- QFile::rename of the stored assignment script from the path keyed by
the old UUID to the path keyed by the new UUID. -/
def renameScript (files : List (Nat × String)) (oldUuid newUuid : Nat) : List (Nat × String) :=
  files.map (fun p => if p.1 = oldUuid then (newUuid, p.2) else p)

/-- Embedding of DomainServer::refreshStaticAssignmentAndAddToQueue: the
assignment UUID is reset to a fresh value; for an Agent assignment with an
empty payload the on-disk script is renamed from the old UUID to the new
one; the assignment is put back into the all-assignments hash under the
new UUID and enqueued at the back of the unfulfilled queue. -/
def refreshStaticAssignmentAndAddToQueue (st : AssignState) (a : Assignment) (newUuid : Nat) :
    AssignState :=
  let oldUuid := a.uuid
  let refreshed := { a with uuid := newUuid }
  let scripts :=
    if refreshed.atype = AssignmentType.AgentType ∧ refreshed.payload = "" then
      renameScript st.scriptFiles oldUuid newUuid
    else st.scriptFiles
  { st with
    allAssignments := hashInsert st.allAssignments newUuid refreshed,
    unfulfilledAssignments := st.unfulfilledAssignments ++ [refreshed],
    scriptFiles := scripts }

/-- The static-assignment half of DomainServer::nodeKilled: when the
linked data of the dead node holds a non-null assignment UUID the entry
is taken out of the all-assignments hash, and if it was static it is
refreshed and re-enqueued. -/
def nodeKilledAssignment (st : AssignState) (nodeAssignmentUUID newUuid : Nat) : AssignState :=
  if nodeAssignmentUUID = 0 then st
  else
    let taken := hashTake st.allAssignments nodeAssignmentUUID
    let st1 := { st with allAssignments := taken.2 }
    match taken.1 with
    | some a =>
      if a.isStatic = true then refreshStaticAssignmentAndAddToQueue st1 a newUuid else st1
    | none => st1

/-- The match of DomainServer::deployableAssignmentForRequest: the types
match (or the requester asked for AllTypes) and the pools match (or both
are empty). -/
def assignmentMatches (req a : Assignment) : Prop :=
  (req.atype = AssignmentType.AllTypes ∨ a.atype = req.atype) ∧
  ((a.pool = "" ∧ req.pool = "") ∨ a.pool = req.pool)

instance (req a : Assignment) : Decidable (assignmentMatches req a) := by
  unfold assignmentMatches
  infer_instance

/-- The queue walk of DomainServer::deployableAssignmentForRequest with
the already visited prefix carried along. -/
def deployAux (req : Assignment) (pre : List Assignment) :
    List Assignment → Option (Assignment × List Assignment)
  | [] => none
  | a :: rest =>
    if assignmentMatches req a then some (a, (pre ++ rest) ++ [a])
    else deployAux req (pre ++ [a]) rest

/-- Embedding of DomainServer::deployableAssignmentForRequest: take the
first matching entry out of the queue and put it back at the back while
handing it out; return none and leave the queue alone when nothing
matches. -/
def deployableAssignmentForRequest (req : Assignment) (queue : List Assignment) :
    Option (Assignment × List Assignment) :=
  deployAux req [] queue

/-- Outbound packet of the assignment request handler. -/
inductive AssignEvent where
  | createAssignmentSent (clone : Assignment) (toSender : Nat)
deriving DecidableEq, Repr

/-- Embedding of DomainServer::processRequestAssignmentPacket: requests
from senders outside the allow-listed subnets are dropped; otherwise the
first matching queue entry is cloned under a freshly generated UUID, the
clone is sent back in a CreateAssignment packet, the original rotates to
the back of the queue and the gatekeeper records the pending assigned
node from the clone UUID to the original assignment. -/
def processRequestAssignmentPacket (st : AssignState) (whitelist : List Nat)
    (sender : Nat) (req : Assignment) (walletUUID : Nat) (nodeVersion : String)
    (freshUuid : Nat) : AssignState × List AssignEvent :=
  if whitelist.contains sender = false then (st, [])
  else
    match deployableAssignmentForRequest req st.unfulfilledAssignments with
    | some (a, rotated) =>
      ({ st with
          unfulfilledAssignments := rotated,
          pendingAssignedNodes :=
            hashInsert st.pendingAssignedNodes freshUuid ⟨a.uuid, walletUUID, nodeVersion⟩ },
       [AssignEvent.createAssignmentSent { a with uuid := freshUuid } sender])
    | none => (st, [])

theorem deployAux_none (req : Assignment) :
    ∀ (l pre : List Assignment),
      (∀ b ∈ l, ¬ assignmentMatches req b) → deployAux req pre l = none := by
  intro l
  induction l with
  | nil => intro pre _; rfl
  | cons a rest ih =>
    intro pre h
    have ha : ¬ assignmentMatches req a := h a (by simp)
    simp only [deployAux, if_neg ha]
    exact ih (pre ++ [a]) (fun b hb => h b (by simp [hb]))

theorem deployAux_found (req a : Assignment) (ha : assignmentMatches req a) :
    ∀ (l1 l2 pre : List Assignment), (∀ b ∈ l1, ¬ assignmentMatches req b) →
      deployAux req pre (l1 ++ a :: l2) = some (a, ((pre ++ l1) ++ l2) ++ [a]) := by
  intro l1
  induction l1 with
  | nil =>
    intro l2 pre _
    simp only [List.nil_append, deployAux, if_pos ha, List.append_nil]
  | cons b l1 ih =>
    intro l2 pre h
    have hb : ¬ assignmentMatches req b := h b (by simp)
    simp only [List.cons_append, deployAux, if_neg hb, List.append_eq]
    rw [ih l2 (pre ++ [b]) (fun c hc => h c (by simp [hc]))]
    simp [List.append_assoc]

/-- C7: for an assignment request from an allow-listed sender, the first
queue entry whose type matches the request (or the requester asked for
AllTypes) and whose pool matches (or both pools are empty) is cloned
under a freshly generated UUID and sent back in a CreateAssignment, the
original rotates to the back of the queue, and the pending assigned nodes
map the clone UUID to the original assignment; when no entry matches,
nothing is dequeued and no packet is sent. -/
theorem C7_requestAssignment (st : AssignState) (whitelist : List Nat) (sender : Nat)
    (req : Assignment) (walletUUID : Nat) (nodeVersion : String) (freshUuid : Nat)
    (hsender : whitelist.contains sender = true) :
    (∀ l1 a l2, st.unfulfilledAssignments = l1 ++ a :: l2 →
      (∀ b ∈ l1, ¬ assignmentMatches req b) → assignmentMatches req a →
      processRequestAssignmentPacket st whitelist sender req walletUUID nodeVersion freshUuid =
        ({ st with
            unfulfilledAssignments := (l1 ++ l2) ++ [a],
            pendingAssignedNodes :=
              hashInsert st.pendingAssignedNodes freshUuid ⟨a.uuid, walletUUID, nodeVersion⟩ },
         [AssignEvent.createAssignmentSent { a with uuid := freshUuid } sender])) ∧
    ((∀ b ∈ st.unfulfilledAssignments, ¬ assignmentMatches req b) →
      processRequestAssignmentPacket st whitelist sender req walletUUID nodeVersion freshUuid
        = (st, [])) := by
  have hws : ¬ whitelist.contains sender = false := by rw [hsender]; decide
  constructor
  · intro l1 a l2 hq hl1 ha
    unfold processRequestAssignmentPacket
    rw [if_neg hws]
    unfold deployableAssignmentForRequest
    rw [hq, deployAux_found req a ha l1 l2 [] hl1]
    simp
  · intro hnone
    unfold processRequestAssignmentPacket
    rw [if_neg hws]
    unfold deployableAssignmentForRequest
    rw [deployAux_none req st.unfulfilledAssignments [] hnone]

/-- Witness for C7: an audio-mixer static assignment is fetched by a
matching request from the allow-listed sender 7. -/
theorem C7_requestAssignment_witness :
    List.contains [7] 7 = true ∧
    processRequestAssignmentPacket
        ⟨[(42, ⟨42, AssignmentType.AudioMixerType, "", "", true⟩)],
         [⟨42, AssignmentType.AudioMixerType, "", "", true⟩], [], []⟩
        [7] 7 ⟨0, AssignmentType.AudioMixerType, "", "", false⟩ 5 "v" 99 =
      (⟨[(42, ⟨42, AssignmentType.AudioMixerType, "", "", true⟩)],
        [⟨42, AssignmentType.AudioMixerType, "", "", true⟩],
        [(99, ⟨42, 5, "v"⟩)], []⟩,
       [AssignEvent.createAssignmentSent ⟨99, AssignmentType.AudioMixerType, "", "", true⟩ 7]) :=
  ⟨by decide,
   by
    exact (C7_requestAssignment
        ⟨[(42, ⟨42, AssignmentType.AudioMixerType, "", "", true⟩)],
         [⟨42, AssignmentType.AudioMixerType, "", "", true⟩], [], []⟩
        [7] 7 ⟨0, AssignmentType.AudioMixerType, "", "", false⟩ 5 "v" 99 (by decide)).1
      [] ⟨42, AssignmentType.AudioMixerType, "", "", true⟩ [] rfl
      (by intro b hb; simp at hb) (by decide)⟩

theorem hashLookup_insert_self {α : Type} (m : List (Nat × α)) (k : Nat) (v : α) :
    hashLookup (hashInsert m k v) k = some v := by
  unfold hashLookup hashInsert
  rw [List.find?_cons_of_pos]
  · rfl
  · simp

theorem hashLookup_insert_of_ne {α : Type} (m : List (Nat × α)) (k k2 : Nat) (v : α)
    (h : ¬ k = k2) :
    hashLookup (hashInsert m k v) k2 = hashLookup (m.filter (fun p => ¬ p.1 = k)) k2 := by
  unfold hashLookup hashInsert
  rw [List.find?_cons_of_neg]
  simp [h]

theorem hashLookup_none_of_all {α : Type} (m : List (Nat × α)) (k : Nat)
    (h : ∀ p ∈ m, ¬ p.1 = k) : hashLookup m k = none := by
  unfold hashLookup
  rw [List.find?_eq_none.mpr]
  · rfl
  · intro p hp
    simpa using h p hp

/-- The conjunction asserted for claim C4 at a state where the node bound
to assignment UUID u dies and the fresh QUuid draw is newUuid: the old
UUID is gone from the all-assignments index, the refreshed assignment is
indexed under the new UUID, it is enqueued at the back of the unfulfilled
queue, the on-disk script is renamed exactly for Agent assignments with
an empty payload, and the next request that matches it (with no earlier
queue entry matching) is sent a clone of it. -/
def C4Spec (st : AssignState) (u newUuid : Nat) (a : Assignment) : Prop :=
  hashLookup (nodeKilledAssignment st u newUuid).allAssignments u = none ∧
  hashLookup (nodeKilledAssignment st u newUuid).allAssignments newUuid
    = some { a with uuid := newUuid } ∧
  (nodeKilledAssignment st u newUuid).unfulfilledAssignments
    = st.unfulfilledAssignments ++ [{ a with uuid := newUuid }] ∧
  (a.atype = AssignmentType.AgentType ∧ a.payload = "" →
    (nodeKilledAssignment st u newUuid).scriptFiles = renameScript st.scriptFiles u newUuid) ∧
  (¬ (a.atype = AssignmentType.AgentType ∧ a.payload = "") →
    (nodeKilledAssignment st u newUuid).scriptFiles = st.scriptFiles) ∧
  (∀ whitelist sender req walletUUID nodeVersion freshUuid,
    whitelist.contains sender = true →
    (∀ b ∈ st.unfulfilledAssignments, ¬ assignmentMatches req b) →
    assignmentMatches req { a with uuid := newUuid } →
    (processRequestAssignmentPacket (nodeKilledAssignment st u newUuid) whitelist sender req
        walletUUID nodeVersion freshUuid).2
      = [AssignEvent.createAssignmentSent { a with uuid := freshUuid } sender])

/-- C4 fails on the code in the queue-position conjunct: after the death
of the node bound to the static Agent assignment 10, the refreshed
assignment (new UUID 11) is enqueued plainly at the back, behind the
queued Agent assignment 50 of its own type class, not at the front of its
type class. -/
theorem C4_counterexample :
    (nodeKilledAssignment
        ⟨[(10, ⟨10, AssignmentType.AgentType, "", "", true⟩)],
         [⟨50, AssignmentType.AgentType, "", "", false⟩], [], [(10, "s")]⟩
        10 11).unfulfilledAssignments
      = [⟨50, AssignmentType.AgentType, "", "", false⟩,
         ⟨11, AssignmentType.AgentType, "", "", true⟩] ∧
    (nodeKilledAssignment
        ⟨[(10, ⟨10, AssignmentType.AgentType, "", "", true⟩)],
         [⟨50, AssignmentType.AgentType, "", "", false⟩], [], [(10, "s")]⟩
        10 11).unfulfilledAssignments.head?
      ≠ some ⟨11, AssignmentType.AgentType, "", "", true⟩ := by
  decide

/-- C4 amended: when a node bound to a static assignment dies, the
assignment UUID is regenerated so the old UUID no longer appears in the
all-assignments index, the assignment is re-enqueued at the back of the
unfulfilled queue (not at the front of its type class), the on-disk
script of an Agent assignment with an empty payload is renamed from the
old UUID to the new UUID, and the assignment reappears in the queue under
the new UUID, fetched by the next matching request once no earlier entry
matches. -/
theorem C4_staticRespawn (st : AssignState) (u newUuid : Nat) (a : Assignment)
    (hu : u ≠ 0) (hnew : newUuid ≠ u)
    (ha : hashLookup st.allAssignments u = some a) (hstatic : a.isStatic = true)
    (huuid : a.uuid = u) : C4Spec st u newUuid a := by
  have hstep : nodeKilledAssignment st u newUuid =
      refreshStaticAssignmentAndAddToQueue
        { st with allAssignments := st.allAssignments.filter (fun p => ¬ p.1 = u) } a newUuid := by
    unfold nodeKilledAssignment hashTake
    rw [if_neg hu]
    dsimp only
    rw [ha]
    simp [hstatic]
  unfold C4Spec
  rw [hstep]
  unfold refreshStaticAssignmentAndAddToQueue
  dsimp only
  refine ⟨?_, ?_, rfl, ?_, ?_, ?_⟩
  · rw [hashLookup_insert_of_ne _ _ _ _ (fun h => hnew h)]
    apply hashLookup_none_of_all
    intro p hp
    have hp1 := List.mem_filter.mp hp
    have hp2 := List.mem_filter.mp hp1.1
    simpa using hp2.2
  · exact hashLookup_insert_self _ _ _
  · intro hcond
    rw [if_pos hcond, huuid]
  · intro hcond
    rw [if_neg hcond]
  · intro whitelist sender req walletUUID nodeVersion freshUuid hsend hmiss hmatch
    have hws : ¬ whitelist.contains sender = false := by rw [hsend]; decide
    unfold processRequestAssignmentPacket
    rw [if_neg hws]
    unfold deployableAssignmentForRequest
    dsimp only
    rw [show st.unfulfilledAssignments ++ [{ a with uuid := newUuid }]
          = st.unfulfilledAssignments ++ { a with uuid := newUuid } :: [] from rfl,
        deployAux_found req { a with uuid := newUuid } hmatch st.unfulfilledAssignments [] [] hmiss]

/-- Witness for the amended C4: a static Agent script assignment with
UUID 10 whose node dies; the fresh draw is 11 and the follow-up request
uses clone UUID 99. -/
theorem C4_staticRespawn_witness :
    ((10 : Nat) ≠ 0 ∧ (11 : Nat) ≠ 10 ∧
      hashLookup [(10, (⟨10, AssignmentType.AgentType, "", "", true⟩ : Assignment))] 10
        = some ⟨10, AssignmentType.AgentType, "", "", true⟩) ∧
    C4Spec ⟨[(10, ⟨10, AssignmentType.AgentType, "", "", true⟩)], [], [], [(10, "s")]⟩ 10 11
      ⟨10, AssignmentType.AgentType, "", "", true⟩ :=
  ⟨⟨by decide, by decide, by decide⟩,
   C4_staticRespawn
     ⟨[(10, ⟨10, AssignmentType.AgentType, "", "", true⟩)], [], [], [(10, "s")]⟩ 10 11
     ⟨10, AssignmentType.AgentType, "", "", true⟩
     (by decide) (by decide) (by decide) rfl rfl⟩

/-! ## Domain list and new-node broadcast

Embedding of DomainServer::processListRequestPacket,
DomainServer::isInInterestSet, DomainServer::sendDomainListToNode and
DomainServer::broadcastNewNode. The DomainList reply is modelled by the
list of per-peer segments (the peer node and the packed connection
secret) together with the threaded secret table. -/

/-- Embedding of DomainServer::isInInterestSet. -/
def isInInterestSet (nodeA nodeB : DSNode) : Bool :=
  match nodeA.linked with
  | some d => d.nodeInterestSet.contains nodeB.ntype
  | none => false

/-- The guard of DomainServer::processListRequestPacket against patched
agents asking to hear about other agents: an Agent never keeps Agent in
its stored interest set. -/
def safeInterestSet (n : DSNode) (declared : List NodeType) : List NodeType :=
  if n.ntype = NodeType.Agent then declared.filter (fun ty => ¬ ty = NodeType.Agent)
  else declared

/-- Store the interest set on the linked data of the node. -/
def setNodeInterestSet (n : DSNode) (s : List NodeType) : DSNode :=
  { n with linked := n.linked.map (fun d => { d with nodeInterestSet := s }) }

/-- One step of the eachNode loop of DomainServer::sendDomainListToNode:
a peer with a different UUID whose type is in the interest set of the
receiving node is appended as a segment together with the pairwise
connection secret. -/
def domainListStep (freshAt : Nat → Nat) (n : DSNode)
    (acc : List (DSNode × Nat) × SecretTable) (other : DSNode) :
    List (DSNode × Nat) × SecretTable :=
  if other.uuid ≠ n.uuid ∧ isInInterestSet n other = true then
    (acc.1 ++ [(other, (connectionSecretForNodes acc.2 n.uuid other.uuid (freshAt other.uuid)).1)],
     (connectionSecretForNodes acc.2 n.uuid other.uuid (freshAt other.uuid)).2)
  else acc

/-- Embedding of DomainServer::sendDomainListToNode: segments are added
only for an authenticated node with a non-empty interest set. -/
def sendDomainListEntries (t : SecretTable) (freshAt : Nat → Nat) (n : DSNode)
    (nodes : List DSNode) : List (DSNode × Nat) × SecretTable :=
  match n.linked with
  | none => ([], t)
  | some d =>
    if d.nodeInterestSet ≠ [] ∧ d.isAuthenticated = true then
      nodes.foldl (domainListStep freshAt n) ([], t)
    else ([], t)

/-- Embedding of DomainServer::processListRequestPacket: the declared
interest set is stored after the Agent guard and a DomainList is sent
back to the node. -/
def processListRequestPacket (t : SecretTable) (freshAt : Nat → Nat) (n : DSNode)
    (declared : List NodeType) (nodes : List DSNode) :
    DSNode × (List (DSNode × Nat) × SecretTable) :=
  let n2 := setNodeInterestSet n (safeInterestSet n declared)
  (n2, sendDomainListEntries t freshAt n2 nodes)

/-- The recipient filter of DomainServer::broadcastNewNode: linked data
present, an active socket, not the added node itself, and the added node
in the interest set of the recipient. -/
def broadcastNewNodeRecipients (nodes : List DSNode) (addedNode : DSNode) : List DSNode :=
  nodes.filter (fun node =>
    node.linked.isSome && node.activeSocket && !(node.uuid == addedNode.uuid)
      && isInInterestSet node addedNode)

/-- Embedding of DomainServer::broadcastNewNode: every recipient gets a
DomainServerAddedNode packet carrying the pairwise connection secret. -/
def broadcastNewNode (t : SecretTable) (freshAt : Nat → Nat) (nodes : List DSNode)
    (addedNode : DSNode) : List (DSNode × Nat) × SecretTable :=
  (broadcastNewNodeRecipients nodes addedNode).foldl
    (fun acc node =>
      (acc.1 ++ [(node, (connectionSecretForNodes acc.2 node.uuid addedNode.uuid (freshAt node.uuid)).1)],
       (connectionSecretForNodes acc.2 node.uuid addedNode.uuid (freshAt node.uuid)).2))
    ([], t)

theorem domainListFold_map_fst (freshAt : Nat → Nat) (n : DSNode) :
    ∀ (nodes : List DSNode) (acc : List (DSNode × Nat) × SecretTable),
      ((nodes.foldl (domainListStep freshAt n) acc).1).map Prod.fst
        = acc.1.map Prod.fst
          ++ nodes.filter (fun other =>
              decide (other.uuid ≠ n.uuid ∧ isInInterestSet n other = true)) := by
  intro nodes
  induction nodes with
  | nil => intro acc; simp
  | cons other rest ih =>
    intro acc
    rw [List.foldl_cons, ih]
    by_cases hcond : other.uuid ≠ n.uuid ∧ isInInterestSet n other = true
    · rw [List.filter_cons_of_pos (by simpa using hcond)]
      unfold domainListStep
      rw [if_pos hcond]
      simp
    · rw [List.filter_cons_of_neg (by simpa using hcond)]
      unfold domainListStep
      rw [if_neg hcond]

theorem domainListFold_symm (freshAt : Nat → Nat) (n : DSNode) :
    ∀ (nodes : List DSNode) (acc : List (DSNode × Nat) × SecretTable),
      Symm acc.2 → Symm ((nodes.foldl (domainListStep freshAt n) acc).2) := by
  intro nodes
  induction nodes with
  | nil => intro acc h; exact h
  | cons other rest ih =>
    intro acc h
    rw [List.foldl_cons]
    apply ih
    unfold domainListStep
    by_cases hcond : other.uuid ≠ n.uuid ∧ isInInterestSet n other = true
    · rw [if_pos hcond]
      exact symm_connectionSecret _ h _ _ _
    · rw [if_neg hcond]
      exact h

/-- C5 fails on the code: with two agents A and B that both declared the
interest set AvatarMixer-and-Agent, the DomainList sent to A contains no
segment for B, and A is not a recipient of the DomainServerAddedNode
broadcast for B, because processListRequestPacket strips Agent from the
interest set of an Agent. -/
theorem C5_counterexample :
    (processListRequestPacket emptySecrets (fun _ => 7)
        ⟨1, NodeType.Agent, some ⟨[], true, false, 0⟩, true⟩
        [NodeType.AvatarMixer, NodeType.Agent]
        [⟨1, NodeType.Agent, some ⟨[], true, false, 0⟩, true⟩,
         ⟨2, NodeType.Agent, some ⟨[NodeType.AvatarMixer], true, false, 0⟩, true⟩]).2.1
      = [] ∧
    broadcastNewNodeRecipients
        [⟨1, NodeType.Agent, some ⟨[NodeType.AvatarMixer], true, false, 0⟩, true⟩]
        ⟨2, NodeType.Agent, some ⟨[NodeType.AvatarMixer], true, false, 0⟩, true⟩
      = [] ∧
    (processListRequestPacket emptySecrets (fun _ => 7)
        ⟨1, NodeType.Agent, some ⟨[], true, false, 0⟩, true⟩
        [NodeType.AvatarMixer, NodeType.Agent]
        [⟨1, NodeType.Agent, some ⟨[], true, false, 0⟩, true⟩,
         ⟨2, NodeType.Agent, some ⟨[NodeType.AvatarMixer], true, false, 0⟩, true⟩]).1.linked
      = some ⟨[NodeType.AvatarMixer], true, false, 0⟩ := by
  decide

/-- C5 amended: an Agent that declares an interest set has Agent stripped
from it, so the DomainList it receives lists exactly the other nodes
whose types are in the stripped set, never any Agent-type node, with the
secret table staying symmetric; and no agent is ever a recipient of the
DomainServerAddedNode broadcast for another agent. Peer information about
other agents comes from the avatar mixer instead. -/
theorem C5_agentDomainList (t : SecretTable) (freshAt : Nat → Nat) (n : DSNode) (d : NodeData)
    (D : List NodeType) (nodes : List DSNode)
    (hA : n.ntype = NodeType.Agent) (hd : n.linked = some d)
    (hne : D.filter (fun ty => ¬ ty = NodeType.Agent) ≠ [])
    (hauth : d.isAuthenticated = true) (ht : Symm t) :
    (processListRequestPacket t freshAt n D nodes).1
      = { n with linked := some { d with
            nodeInterestSet := D.filter (fun ty => ¬ ty = NodeType.Agent) } } ∧
    ((processListRequestPacket t freshAt n D nodes).2.1).map Prod.fst
      = nodes.filter (fun other =>
          decide (other.uuid ≠ n.uuid ∧
            (D.filter (fun ty => ¬ ty = NodeType.Agent)).contains other.ntype = true)) ∧
    (∀ p ∈ (processListRequestPacket t freshAt n D nodes).2.1,
      ¬ p.1.ntype = NodeType.Agent) ∧
    Symm (processListRequestPacket t freshAt n D nodes).2.2 ∧
    (∀ nodes2 added, added.ntype = NodeType.Agent →
      (processListRequestPacket t freshAt n D nodes).1 ∉ broadcastNewNodeRecipients nodes2 added) := by
  have hn2 : (processListRequestPacket t freshAt n D nodes).1
      = { n with linked := some { d with
            nodeInterestSet := D.filter (fun ty => ¬ ty = NodeType.Agent) } } := by
    unfold processListRequestPacket setNodeInterestSet safeInterestSet
    rw [hd]
    simp [hA]
  have hinterest : ∀ other : DSNode,
      isInInterestSet (processListRequestPacket t freshAt n D nodes).1 other
        = (D.filter (fun ty => ¬ ty = NodeType.Agent)).contains other.ntype := by
    intro other
    rw [hn2]
    rfl
  have hentries : (processListRequestPacket t freshAt n D nodes).2
      = List.foldl (domainListStep freshAt (processListRequestPacket t freshAt n D nodes).1)
          ([], t) nodes := by
    show sendDomainListEntries t freshAt (processListRequestPacket t freshAt n D nodes).1 nodes = _
    unfold sendDomainListEntries
    rw [hn2]
    dsimp only
    rw [if_pos ⟨by simpa using hne, hauth⟩]
  refine ⟨hn2, ?_, ?_, ?_, ?_⟩
  · rw [hentries, domainListFold_map_fst]
    simp only [List.map_nil, List.nil_append]
    congr 1
    funext other
    rw [hinterest other, hn2]
  · intro p hp
    have hmem : p.1 ∈ ((processListRequestPacket t freshAt n D nodes).2.1).map Prod.fst :=
      List.mem_map_of_mem Prod.fst hp
    rw [hentries, domainListFold_map_fst] at hmem
    simp only [List.map_nil, List.nil_append, List.mem_filter] at hmem
    obtain ⟨-, hcond⟩ := hmem
    rw [hinterest p.1] at hcond
    have : p.1.ntype ∈ D.filter (fun ty => ¬ ty = NodeType.Agent) := by
      have := of_decide_eq_true hcond
      simpa [List.contains] using this.2
    have := List.mem_filter.mp this
    simpa using this.2
  · rw [hentries]
    exact domainListFold_symm _ _ nodes ([], t) ht
  · intro nodes2 added hadded hmem
    have hfil := List.mem_filter.mp hmem
    have hcond := hfil.2
    rw [Bool.and_eq_true, Bool.and_eq_true, Bool.and_eq_true] at hcond
    have hint := hcond.2
    rw [hinterest added, hadded] at hint
    simp [List.contains] at hint

/-- Witness for the amended C5: agent 1 declares AvatarMixer and Agent;
the registry holds the agent itself and an avatar mixer. -/
theorem C5_agentDomainList_witness :
    (processListRequestPacket emptySecrets (fun _ => 7)
        ⟨1, NodeType.Agent, some ⟨[], true, false, 0⟩, true⟩
        [NodeType.AvatarMixer, NodeType.Agent]
        [⟨1, NodeType.Agent, some ⟨[], true, false, 0⟩, true⟩,
         ⟨3, NodeType.AvatarMixer, some ⟨[NodeType.Agent], true, false, 0⟩, true⟩]).1
      = ⟨1, NodeType.Agent, some ⟨[NodeType.AvatarMixer], true, false, 0⟩, true⟩ ∧
    ((processListRequestPacket emptySecrets (fun _ => 7)
        ⟨1, NodeType.Agent, some ⟨[], true, false, 0⟩, true⟩
        [NodeType.AvatarMixer, NodeType.Agent]
        [⟨1, NodeType.Agent, some ⟨[], true, false, 0⟩, true⟩,
         ⟨3, NodeType.AvatarMixer, some ⟨[NodeType.Agent], true, false, 0⟩, true⟩]).2.1).map Prod.fst
      = [⟨3, NodeType.AvatarMixer, some ⟨[NodeType.Agent], true, false, 0⟩, true⟩] := by
  have h := C5_agentDomainList emptySecrets (fun _ => 7)
    ⟨1, NodeType.Agent, some ⟨[], true, false, 0⟩, true⟩ ⟨[], true, false, 0⟩
    [NodeType.AvatarMixer, NodeType.Agent]
    [⟨1, NodeType.Agent, some ⟨[], true, false, 0⟩, true⟩,
     ⟨3, NodeType.AvatarMixer, some ⟨[NodeType.Agent], true, false, 0⟩, true⟩]
    rfl rfl (by decide) rfl (fun _ _ => rfl)
  exact ⟨h.1, by rw [h.2.1]; decide⟩

/-! ## HTTP control surface authentication

Embedding of DomainServer::handleHTTPRequest (its dispatch order around
the authentication check) and DomainServer::isAuthenticatedRequest. URL
paths are embedded structurally; the OAuth callback at the oauth path is
served by the HTTPS handler, not by this dispatcher. The SHA-256 hex
digest used by basic authentication is a function parameter. -/

/-- Paths the dispatcher distinguishes. -/
inductive UrlPath where
  | idPath
  | assignmentScript (uuid : Nat)
  | oauthCallback
  | otherPath (tag : Nat)
deriving DecidableEq, Repr

/-- HTTP request operations. -/
inductive HttpMethod where
  | get
  | post
  | put
  | deleteOp
deriving DecidableEq, Repr

/-- An inbound HTTP request: operation, path, session cookie, the
X-Requested-With marker and the decoded basic-auth credentials. -/
structure HttpRequest where
  method : HttpMethod
  path : UrlPath
  cookie : Option Nat
  isXHR : Bool
  basicCreds : Option (String × String)
deriving DecidableEq, Repr

/-- A cookie session: the profile username and roles. -/
structure WebSessionData where
  username : String
  roles : List String
deriving DecidableEq, Repr

/-- The settings read by isAuthenticatedRequest. -/
structure WebAuthConfig where
  oauthProviderConfigured : Bool
  adminUsersSetting : Option (List String)
  adminRolesSetting : Option (List String)
  httpUsername : Option String
  httpPasswordSha256 : Option String
  cookieSessions : List (Nat × WebSessionData)
deriving DecidableEq, Repr

/-- Responses relevant to the authentication gate. A routeAction response
stands for the dispatch continuing past the authentication check into the
admin routes. -/
inductive HttpResponse where
  | idResponse (uuid : Nat)
  | scriptResponse (script : String)
  | notFound
  | unauthorized
  | redirectToProvider
  | routeAction (path : UrlPath)
  | unhandled
deriving DecidableEq, Repr

/-- Embedding of DomainServer::isAuthenticatedRequest: none means the
request is authenticated; some resp means the handler already responded
with resp. With an OAuth provider and admin users or roles configured, a
known cookie session passes when its username is an admin user or one of
its roles is an admin role, and fails with 401 otherwise; a missing or
unknown cookie gets 401 for XHR requests and a 302 to the provider
otherwise. With basic auth configured, the decoded credentials must match
the configured username and SHA-256 password hex. With neither, every
request is authenticated. -/
def isAuthenticatedRequest (cfg : WebAuthConfig) (sha256 : String → String)
    (req : HttpRequest) : Option HttpResponse :=
  if cfg.oauthProviderConfigured = true
      ∧ (cfg.adminUsersSetting.isSome = true ∨ cfg.adminRolesSetting.isSome = true) then
    match req.cookie.bind (fun c => hashLookup cfg.cookieSessions c) with
    | some sessionData =>
      if (cfg.adminUsersSetting.getD []).contains sessionData.username = true then none
      else if sessionData.roles.any (fun r => (cfg.adminRolesSetting.getD []).contains r) = true then
        none
      else some HttpResponse.unauthorized
    | none =>
      if req.isXHR = true then some HttpResponse.unauthorized
      else some HttpResponse.redirectToProvider
  else if cfg.httpUsername.isSome = true then
    match req.basicCreds with
    | some (u, p) =>
      if cfg.httpUsername.getD "" = u
          ∧ cfg.httpPasswordSha256.getD "" = (if p = "" then "" else sha256 p) then none
      else some HttpResponse.unauthorized
    | none => some HttpResponse.unauthorized
  else none

/-- Embedding of the dispatch order of DomainServer::handleHTTPRequest:
the scripted-assignment download and the id route are checked before the
authentication gate; every other request must pass
isAuthenticatedRequest before any route action runs. -/
def handleHTTPRequest (cfg : WebAuthConfig) (sha256 : String → String)
    (nodes : List DSNode) (allAssignments : List (Nat × Assignment))
    (ephemeralScripts : List (Nat × String)) (domainUUID : Nat)
    (req : HttpRequest) : HttpResponse :=
  match req.method, req.path with
  | HttpMethod.get, UrlPath.assignmentScript u =>
    (match nodes.find? (fun node => node.uuid == u) with
     | none => HttpResponse.unhandled
     | some node =>
       match node.linked with
       | none => HttpResponse.unhandled
       | some nodeData =>
         match hashLookup allAssignments nodeData.assignmentUUID with
         | some matchingAssignment =>
           if matchingAssignment.atype = AssignmentType.AgentType then
             match hashLookup ephemeralScripts matchingAssignment.uuid with
             | some script => HttpResponse.scriptResponse script
             | none => HttpResponse.notFound
           else HttpResponse.unhandled
         | none => HttpResponse.unhandled)
  | HttpMethod.get, UrlPath.idPath => HttpResponse.idResponse domainUUID
  | _, _ =>
    match isAuthenticatedRequest cfg sha256 req with
    | some resp => resp
    | none => HttpResponse.routeAction req.path

/-- Whether the request hits one of the two routes that the dispatcher
serves before the authentication check. -/
def requestBypassesAuthCheck (req : HttpRequest) : Bool :=
  match req.method, req.path with
  | HttpMethod.get, UrlPath.assignmentScript _ => true
  | HttpMethod.get, UrlPath.idPath => true
  | _, _ => false

theorem isAuthenticatedRequest_denials (cfg : WebAuthConfig) (sha256 : String → String)
    (req : HttpRequest) (resp : HttpResponse)
    (h : isAuthenticatedRequest cfg sha256 req = some resp) :
    resp = HttpResponse.unauthorized ∨ resp = HttpResponse.redirectToProvider := by
  unfold isAuthenticatedRequest at h
  repeat' split at h <;> simp_all

theorem handleHTTP_past_auth (cfg : WebAuthConfig) (sha256 : String → String)
    (nodes : List DSNode) (allAssignments : List (Nat × Assignment))
    (ephemeralScripts : List (Nat × String)) (domainUUID : Nat) (req : HttpRequest)
    (h : requestBypassesAuthCheck req = false) :
    handleHTTPRequest cfg sha256 nodes allAssignments ephemeralScripts domainUUID req
      = match isAuthenticatedRequest cfg sha256 req with
        | some resp => resp
        | none => HttpResponse.routeAction req.path := by
  obtain ⟨m, p, ck, xhr, creds⟩ := req
  cases m <;> cases p <;> first
    | rfl
    | (exact absurd h (by decide))
    | (simp [requestBypassesAuthCheck] at h)

/-- C6 fails on the code: with basic authentication configured and a
request carrying no credentials, a GET of the scripted-assignment
download route is served (HTTP 200 with the script body) without any
authentication, although the same request is rejected by
isAuthenticatedRequest; the route sits before the authentication check,
alongside the id route and the OAuth callback of the HTTPS handler. -/
theorem C6_counterexample :
    handleHTTPRequest ⟨false, none, none, some "admin", some "h", []⟩ (fun s => s)
        [⟨5, NodeType.Agent, some ⟨[], true, true, 9⟩, true⟩]
        [(9, ⟨9, AssignmentType.AgentType, "", "", false⟩)]
        [(9, "js-code")] 77
        ⟨HttpMethod.get, UrlPath.assignmentScript 5, none, false, none⟩
      = HttpResponse.scriptResponse "js-code" ∧
    isAuthenticatedRequest ⟨false, none, none, some "admin", some "h", []⟩ (fun s => s)
        ⟨HttpMethod.get, UrlPath.assignmentScript 5, none, false, none⟩
      = some HttpResponse.unauthorized := by
  decide

/-- C6 amended: every HTTP route other than GET of the id route, GET of
the scripted-assignment download route, and the OAuth callback (served by
the HTTPS handler) requires authentication: such a request that fails the
configured strategy is answered by exactly the 401 or 302 produced by
isAuthenticatedRequest and no route action runs, while an authenticated
one proceeds to its route action. -/
theorem C6_httpAuthGate (cfg : WebAuthConfig) (sha256 : String → String)
    (nodes : List DSNode) (allAssignments : List (Nat × Assignment))
    (ephemeralScripts : List (Nat × String)) (domainUUID : Nat) (req : HttpRequest)
    (hbypass : requestBypassesAuthCheck req = false) :
    (∀ resp, isAuthenticatedRequest cfg sha256 req = some resp →
      handleHTTPRequest cfg sha256 nodes allAssignments ephemeralScripts domainUUID req = resp ∧
      (resp = HttpResponse.unauthorized ∨ resp = HttpResponse.redirectToProvider)) ∧
    (isAuthenticatedRequest cfg sha256 req = none →
      handleHTTPRequest cfg sha256 nodes allAssignments ephemeralScripts domainUUID req
        = HttpResponse.routeAction req.path) := by
  have hpast := handleHTTP_past_auth cfg sha256 nodes allAssignments ephemeralScripts
    domainUUID req hbypass
  constructor
  · intro resp hresp
    refine ⟨?_, isAuthenticatedRequest_denials cfg sha256 req resp hresp⟩
    rw [hpast, hresp]
  · intro hnone
    rw [hpast, hnone]

/-- Witness for the amended C6: basic authentication configured and a GET
of an admin route carrying no credentials, which the gate answers with
the 401 of isAuthenticatedRequest and no route action. -/
theorem C6_httpAuthGate_witness :
    requestBypassesAuthCheck ⟨HttpMethod.get, UrlPath.otherPath 3, none, false, none⟩ = false ∧
    ((∀ resp,
        isAuthenticatedRequest ⟨false, none, none, some "admin", some "pw-sha", []⟩ (fun _ => "pw-sha")
          ⟨HttpMethod.get, UrlPath.otherPath 3, none, false, none⟩ = some resp →
        handleHTTPRequest ⟨false, none, none, some "admin", some "pw-sha", []⟩ (fun _ => "pw-sha")
          [] [] [] 77 ⟨HttpMethod.get, UrlPath.otherPath 3, none, false, none⟩ = resp ∧
        (resp = HttpResponse.unauthorized ∨ resp = HttpResponse.redirectToProvider)) ∧
      (isAuthenticatedRequest ⟨false, none, none, some "admin", some "pw-sha", []⟩ (fun _ => "pw-sha")
          ⟨HttpMethod.get, UrlPath.otherPath 3, none, false, none⟩ = none →
        handleHTTPRequest ⟨false, none, none, some "admin", some "pw-sha", []⟩ (fun _ => "pw-sha")
          [] [] [] 77 ⟨HttpMethod.get, UrlPath.otherPath 3, none, false, none⟩
          = HttpResponse.routeAction (UrlPath.otherPath 3))) :=
  ⟨by decide,
   C6_httpAuthGate ⟨false, none, none, some "admin", some "pw-sha", []⟩ (fun _ => "pw-sha")
     [] [] [] 77 ⟨HttpMethod.get, UrlPath.otherPath 3, none, false, none⟩ (by decide)⟩

end Hifi
